import Mathlib

/-!
Shallow embedding of the go_agent workflow-engine core (src/unnamed/part_002)
and proofs about its node lifecycle, retry executor, router, flows and batch
executors.  Go interface values that carry data are modelled by `Val`; the
shared store and the per-node parameter map (both `map[string]interface` + braces
in Go) are association lists threaded through the lifecycle functions; the
panic/recover fault mechanism of Exec is modelled by `ExecOutcome`.
Method calls such as `n.Exec(...)` are modelled by the method set carried by
the node (the methods of the node's dynamic type); runtime type assertions
such as `x.(*BaseNode)` are modelled exactly, on the dynamic type tag.
Executors additionally return an event trace recording which phases, Exec
attempts, waits and fallback invocations were performed.
-/

/-- A Go value of static type interface (the empty interface), as used by the
engine for prep results, exec results, actions and store entries.  `verr`
models a value implementing the error interface, carrying its message. -/
inductive Val where
  | vnil
  | vstr (s : String)
  | vint (n : Int)
  | verr (msg : String)
  | vlist (xs : List Val)
  | vmap (entries : List (String × Val))

/-- The shared store and parameter maps: string-keyed mutable maps, modelled
as association lists. -/
abbrev Store := List (String × Val)

/-- Map lookup, m[k]. -/
def storeLookup (k : String) : Store → Option Val
  | [] => none
  | (k2, v) :: rest => if k2 = k then some v else storeLookup k rest

/-- Map update, m[k] = v: overwrites an existing entry, else appends. -/
def storeSet (k : String) (v : Val) : Store → Store
  | [] => [(k, v)]
  | (k2, v2) :: rest =>
    if k2 = k then (k, v) :: rest else (k2, v2) :: storeSet k v rest

mutual
/-- Go's fmt.Sprintf with the %v verb, as applied to actions at
part_002:241 and part_002:558.  nil prints "<nil>", a string prints itself,
an error prints its message, integers print in decimal.  The rendering of
composite values is approximate (no theorem relies on it). -/
def goFormat : Val → String
  | .vnil => "<nil>"
  | .vstr s => s
  | .vint n => toString n
  | .verr m => m
  | .vlist xs => "[" ++ goFormatList xs ++ "]"
  | .vmap m => "map[" ++ goFormatEntries m ++ "]"

/-- Space-separated rendering of list elements for goFormat. -/
def goFormatList : List Val → String
  | [] => ""
  | [x] => goFormat x
  | x :: y :: rest => goFormat x ++ " " ++ goFormatList (y :: rest)

/-- key:value rendering of map entries for goFormat. -/
def goFormatEntries : List (String × Val) → String
  | [] => ""
  | [(k, v)] => k ++ ":" ++ goFormat v
  | (k, v) :: e :: rest => k ++ ":" ++ goFormat v ++ " " ++ goFormatEntries (e :: rest)
end

/-- Outcome of one invocation of a node's Exec: either a normal return, or a
runtime fault (a Go panic carrying a value). -/
inductive ExecOutcome where
  | ok (v : Val)
  | fault (e : Val)

/-- Events performed by the retry executors: one Exec invocation, one
fixed-delay wait of the given duration, one fallback invocation. -/
inductive REv where
  | execCall
  | waited (w : Nat)
  | fellBack
deriving Repr, DecidableEq

/-- Node.ExecFallback (part_002:114-116): the default fallback handler
returns the error value itself. -/
def Node.ExecFallback (_prepRes : Val) (err : Val) : Val := err

/-- AsyncNode.ExecFallbackAsync (part_002:331-333): same default for the
async variant. -/
def AsyncNode.ExecFallbackAsync (_prepRes : Val) (err : Val) : Val := err

/-- Exit of the retry for-loop in Node.execInternal: either a normal return
with a value, or a panic unwinding out of the loop. -/
inductive RetryExit where
  | ret (v : Val)
  | unwound (e : Val)

/-- The for-loop of Node.execInternal (part_002:120-145), entered at
curRetry = 0 with maxRetries and the node's Exec.

In Go, defer is function-scoped, not block-scoped: the deferred recover
registered at part_002:122-131 runs only when execInternal itself exits, so
it cannot intercept a panic within an iteration.  Consequently, on the first
iteration (curRetry = 0, assuming maxRetries is at least 1):
* if Exec returns normally, the iteration-local err variable is still nil
  (only the deferred recover ever assigns it), so the branch
  `if err == nil` at part_002:134 returns the result: one Exec call;
* if Exec panics, the panic unwinds out of the loop immediately: again one
  Exec call, and the fallback branch (part_002:138-140) and the wait branch
  (part_002:142-144) are unreachable - they would require err to be non-nil
  after a normal return from Exec, which cannot happen.
The loop therefore performs exactly one iteration and never recurses; with
maxRetries = 0 the loop body does not run and the trailing
`return nil` (part_002:146) is reached. -/
def Node.execInternalLoop (exec : Val → ExecOutcome) (maxRetries : Nat) (prepRes : Val) :
    RetryExit × List REv :=
  if 0 < maxRetries then
    match exec prepRes with
    | .ok v => (.ret v, [.execCall])
    | .fault e => (.unwound e, [.execCall])
  else (.ret .vnil, [])

/-- Node.execInternal (part_002:119-147): runs the loop; a panic that unwinds
out of the loop is caught by the function-scoped deferred recover at function
exit, and execInternal then returns the zero value of its unnamed result,
nil.  The fallback argument is recorded for the signature's sake only: the
analysis of the loop above shows the call site part_002:139 is dead code. -/
def Node.execInternal (exec : Val → ExecOutcome) (_fallback : Val → Val → Val)
    (maxRetries : Nat) (_wait : Nat) (prepRes : Val) : Val × List REv :=
  match Node.execInternalLoop exec maxRetries prepRes with
  | (.ret v, tr) => (v, tr)
  | (.unwound _, tr) => (Val.vnil, tr)

/-- The for-loop of AsyncNode.execAsyncInternal (part_002:373-405).  Unlike
the synchronous version, the recover here is registered inside a per-attempt
inner function literal (part_002:375-391), so each attempt's panic is
converted to a non-nil err for that iteration: on a fault at attempt
i = maxRetries - 1 the fallback result is sent (part_002:397-400), on an
earlier fault the loop sleeps wait (if positive, part_002:402-404) and
retries.  i is the attempt counter; fuel = maxRetries - i bounds the
remaining iterations.  If the loop falls through (maxRetries = 0), the
goroutine closes the result channel without sending, and the reader receives
the channel's zero value, nil. -/
def AsyncNode.execAsyncLoop (exec : Val → ExecOutcome) (fallback : Val → Val → Val)
    (wait : Nat) (prepRes : Val) (maxRetries : Nat) : Nat → Nat → Val × List REv
  | _, 0 => (Val.vnil, [])
  | i, _fuel+1 =>
    if i < maxRetries then
      match exec prepRes with
      | .ok v => (v, [.execCall])
      | .fault e =>
        if i = maxRetries - 1 then
          (fallback prepRes e, [.execCall, .fellBack])
        else
          let rest := AsyncNode.execAsyncLoop exec fallback wait prepRes maxRetries (i+1) _fuel
          (rest.1, .execCall :: ((if 0 < wait then [REv.waited wait] else []) ++ rest.2))
    else (Val.vnil, [])

/-- AsyncNode.execAsyncInternal (part_002:369-408): the retry-wrapped async
Exec, started at attempt 0.  The result channel is buffered and single-fire;
its value is the pair's first component, and the trace records the attempts,
waits and fallback invocation performed before it was sent. -/
def AsyncNode.execAsyncInternal (exec : Val → ExecOutcome) (fallback : Val → Val → Val)
    (maxRetries wait : Nat) (prepRes : Val) : Val × List REv :=
  AsyncNode.execAsyncLoop exec fallback wait prepRes maxRetries 0 maxRetries

/-- Contrast for the analysis of the synchronous retry executor: the async
retry executor does implement the (n, w) retry policy.  With maxRetries 3,
wait 5 and an always-faulting ExecAsync, it performs 3 attempts, 2 waits of
duration 5 between them and one fallback invocation, whose value (the error
itself, under the default fallback) is the result. -/
theorem execAsyncInternal_implements_retry_policy :
    AsyncNode.execAsyncInternal (fun _ => .fault (Val.verr "boom"))
        AsyncNode.ExecFallbackAsync 3 5 Val.vnil
      = (Val.verr "boom",
         [REv.execCall, REv.waited 5, REv.execCall, REv.waited 5,
          REv.execCall, REv.fellBack]) := rfl

/-- The dynamic type of a node value stored in an interface: the concrete
node types defined in part_002, plus user-defined node types that embed one
of them (such as DecideAction, SearchWebNode and AnswerQuestion in the
example package, or the test node types in part_003). -/
inductive NodeTag where
  | baseNode | node | batchNode | flow | batchFlow
  | asyncNode | asyncBatchNode | asyncParallelBatchNode | asyncFlow
  | external (name : String)

/-- The lifecycle method set of a node's dynamic type: Prep, Exec, Post and
their async counterparts.  Each method receives the node's current parameter
map (the params field set by SetParams, which the method body may read
through its receiver) and, where the Go signature passes it, the shared
store; store-mutating phases return the updated store.  Exec in a flow
context is modelled as total (a panic there would crash the orchestrator -
no recover exists outside the retry executors - and no claim concerns it);
ExecAsync may fault, as the async retry executor recovers per attempt. -/
structure Methods where
  prep : Store → Store → Store × Val
  exec : Store → Val → Val
  post : Store → Store → Val → Val → Store × Val
  prepAsync : Store → Store → Store × Val
  execAsync : Store → Val → ExecOutcome
  fallbackAsync : Val → Val → Val
  postAsync : Store → Store → Val → Val → Store × Val

/-- The default (base) method implementations from part_002: Prep, Exec,
Post, PrepAsync, ExecAsync and PostAsync return nil (part_002:43-55,
321-328, 336-338); the fallbacks return the error (part_002:114-116,
331-333).  These are the methods of the library's own node types; user node
types override some of them. -/
def Methods.defaults : Methods :=
  ⟨fun _ s => (s, .vnil), fun _ _ => .vnil, fun _ s _ _ => (s, .vnil),
   fun _ s => (s, .vnil), fun _ _ => .ok .vnil, fun _ e => e,
   fun _ s _ _ => (s, .vnil)⟩

/-- A node value: its dynamic type tag, an identity (used only to label
trace events), the retry policy fields maxRetries and wait (part_002:99-100;
zero for types without them), the method set of its dynamic type, and its
successor map (action string to successor node, part_002:14). -/
inductive GoNode where
  | mk (tag : NodeTag) (id : Nat) (maxRetries wait : Nat) (m : Methods)
       (successors : List (String × GoNode))

/-- The dynamic type tag of a node. -/
def GoNode.tag : GoNode → NodeTag
  | .mk t _ _ _ _ _ => t

/-- The trace identity of a node. -/
def GoNode.nid : GoNode → Nat
  | .mk _ i _ _ _ _ => i

/-- The maxRetries field of a node. -/
def GoNode.maxRetries : GoNode → Nat
  | .mk _ _ r _ _ _ => r

/-- The wait field of a node. -/
def GoNode.wait : GoNode → Nat
  | .mk _ _ _ w _ _ => w

/-- The method set of a node's dynamic type. -/
def GoNode.m : GoNode → Methods
  | .mk _ _ _ _ m _ => m

/-- The successor map of a node. -/
def GoNode.successors : GoNode → List (String × GoNode)
  | .mk _ _ _ _ _ s => s

/-- Successor-map lookup, successors[action]. -/
def succLookup (action : String) : List (String × GoNode) → Option GoNode
  | [] => none
  | (a, n) :: rest => if a = action then some n else succLookup action rest

/-- Successor-map update, successors[action] = node: overwrites an existing
entry (the Go code logs a warning in that case, part_002:35-37), else adds
one. -/
def succSet (action : String) (node : GoNode) : List (String × GoNode) → List (String × GoNode)
  | [] => [(action, node)]
  | (a, n) :: rest =>
    if a = action then (action, node) :: rest else (a, n) :: succSet action node rest

/-- BaseNode.Next (part_002:31-40): registers node as the successor for
action, substituting the reserved key "default" when action is the empty
string, and returns the successor map after the update. -/
def BaseNode.Next (succs : List (String × GoNode)) (node : GoNode) (action : String) :
    List (String × GoNode) :=
  let a := if action = "" then "default" else action
  succSet a node succs

/-- Flow.GetNextNode (part_002:200-214): substitutes "default" for the empty
action, then looks the action up in the current node's successor map.  When
the key is absent the Go code logs a diagnostic if the map is non-empty
(part_002:206-212) and returns the map's zero value nil; either way the
returned next node is simply the lookup result. -/
def Flow.GetNextNode (succs : List (String × GoNode)) (action : String) : Option GoNode :=
  let a := if action = "" then "default" else action
  succLookup a succs

/-- The Go type assertion x.(*BaseNode) used at part_002:231, 246, 540 and
563: it succeeds only when the dynamic type of the interface value is
exactly *BaseNode.  A *Node, *BatchNode, *AsyncNode, *Flow or any
user-defined node type embedding one of them has a different dynamic type
and fails the assertion (Go type assertions do not follow struct
embedding). -/
def assertBaseNode (n : GoNode) : Option GoNode :=
  match n.tag with
  | .baseNode => some n
  | _ => none

/-- The Go type assertion to *AsyncNode applied at part_002:551 to a value
whose dynamic type has already been established: it succeeds only for the
exact dynamic type *AsyncNode. -/
def castAsyncNode (n : GoNode) : Bool :=
  match n.tag with
  | .asyncNode => true
  | _ => false

/-- Lifecycle trace events: which phase of which node ran. -/
inductive LEv where
  | prepEv (id : Nat)
  | execEv (id : Nat)
  | postEv (id : Nat)
  | prepAsyncEv (id : Nat)
  | execAsyncEv (id : Nat)
  | postAsyncEv (id : Nat)
deriving Repr, DecidableEq

/-- BaseNode.runInternal (part_002:71-75): Prep, then execInternal - which at
the BaseNode level is just Exec, part_002:58-60 - then Post, threading the
shared store and passing the prep result to Exec and both results to Post.
The methods invoked are those of the receiver's dynamic type; the trace
records the three phases of the node. -/
def BaseNode.runInternal (n : GoNode) (params shared : Store) : Store × Val × List LEv :=
  let pr := n.m.prep params shared
  let execRes := n.m.exec params pr.2
  let po := n.m.post params pr.1 pr.2 execRes
  (po.1, po.2, [.prepEv n.nid, .execEv n.nid, .postEv n.nid])

/-- AsyncNode.runInternal (part_002:411-413): the synchronous run path of an
AsyncNode returns the error "use RunAsync" without invoking any lifecycle
phase; the shared store is untouched and the trace is empty. -/
def AsyncNode.runInternal (_n : GoNode) (_params shared : Store) : Store × Val × List LEv :=
  (shared, Val.verr "use RunAsync", [])

/-- AsyncNode.runAsyncInternal (part_002:355-366): PrepAsync, then the
retry-wrapped ExecAsync, then PostAsync, on the node's own retry policy. -/
def AsyncNode.runAsyncInternal (n : GoNode) (params shared : Store) : Store × Val × List LEv :=
  let pr := n.m.prepAsync params shared
  let ex := AsyncNode.execAsyncInternal (n.m.execAsync params) n.m.fallbackAsync
    n.maxRetries n.wait pr.2
  let po := n.m.postAsync params pr.1 pr.2 ex.1
  (po.1, po.2, [.prepAsyncEv n.nid, .execAsyncEv n.nid, .postAsyncEv n.nid])

/-- The for-loop of Flow.orchestrate (part_002:237-251): set the current
node's params, run its lifecycle, stringify the returned action with
fmt.Sprintf %v, resolve the successor, and either break - returning the last
action - when the successor is nil or fails the *BaseNode assertion, or
continue with the successor.  fuel bounds the number of iterations modelled
(the Go loop has no such bound); every theorem supplies sufficient fuel. -/
def Flow.orchLoop (params : Store) : GoNode → Store → Nat → Store × Val × List LEv
  | _, shared, 0 => (shared, .vnil, [])
  | curr, shared, fuel+1 =>
    let step := BaseNode.runInternal curr params shared
    match Flow.GetNextNode curr.successors (goFormat step.2.1) with
    | none => step
    | some nxt =>
      match assertBaseNode nxt with
      | none => step
      | some nb =>
        let rest := Flow.orchLoop params nb step.1 fuel
        (rest.1, rest.2.1, step.2.2 ++ rest.2.2)

/-- Flow.orchestrate (part_002:217-254): nil start node yields nil; a nil
params argument is replaced by a copy of the flow's own params; the start
node must pass the *BaseNode type assertion (part_002:231-234), else the
result is nil with nothing executed; otherwise the loop runs from the start
node. -/
def Flow.orchestrate (startNode : Option GoNode) (flowParams : Store)
    (shared : Store) (params : Option Store) (fuel : Nat) : Store × Val × List LEv :=
  match startNode with
  | none => (shared, .vnil, [])
  | some sn =>
    let ps := params.getD flowParams
    match assertBaseNode sn with
    | none => (shared, .vnil, [])
    | some curr => Flow.orchLoop ps curr shared fuel

/-- Flow.Post (part_002:264-266): returns the exec result (the orchestration
result) unchanged. -/
def Flow.Post (_shared : Store) (_prepRes : Val) (execRes : Val) : Val := execRes

/-- Flow.runInternal (part_002:257-261): the flow's own Prep (the promoted
BaseNode default, returning nil), the orchestration with nil params, then
Flow.Post, which returns the orchestration result. -/
def Flow.runInternal (startNode : Option GoNode) (flowParams : Store)
    (shared : Store) (fuel : Nat) : Store × Val × List LEv :=
  let prepRes := Val.vnil
  let orch := Flow.orchestrate startNode flowParams shared none fuel
  (orch.1, Flow.Post orch.1 prepRes orch.2.1, orch.2.2)

/-- BatchNode.execInternal (part_002:162-177): nil input or an input that is
not a slice yields an empty result slice immediately; otherwise each element
is passed independently, in order, to the embedded Node's retry-wrapped
execInternal (part_002:174, b.Node.execInternal) and the results are
collected index-for-index.  The trace concatenates the per-element retry
traces in order; it is empty exactly when Exec was never invoked. -/
def BatchNode.execInternal (exec : Val → ExecOutcome) (fallback : Val → Val → Val)
    (maxRetries wait : Nat) (items : Val) : Val × List REv :=
  match items with
  | .vlist xs =>
    let rs := xs.map (Node.execInternal exec fallback maxRetries wait)
    (.vlist (rs.map Prod.fst), (rs.map Prod.snd).flatten)
  | _ => (.vlist [], [])

/-- One write of a parallel batch task's result into its pre-sized output
slot (part_002:482-491: results is pre-sized, task idx deposits into
resultChans[idx], the collector stores it at results[idx]).  Out-of-range
indices leave the slots unchanged. -/
def slotWrite : List (Option Val) → Nat → Val → List (Option Val)
  | [], _, _ => []
  | _ :: rest, 0, v => some v :: rest
  | s :: rest, i+1, v => s :: slotWrite rest i v

/-- The fan-out phase of AsyncParallelBatchNode.execAsyncInternal
(part_002:481-502): one task per element, each computing the retry-wrapped
async Exec of its own element and depositing the result in its own slot.
order is the order in which the tasks complete and deposit; a run of all k
tasks is any permutation of their indices.  The deposit slot is the task's
original index regardless of completion order. -/
def AsyncParallelBatchNode.runTasks (f : Val → Val) (xs : List Val) (order : List Nat) :
    List (Option Val) :=
  order.foldl (fun slots idx => slotWrite slots idx (f (xs.getD idx Val.vnil)))
    (List.replicate xs.length none)

/-- AsyncParallelBatchNode.execAsyncInternal (part_002:466-505): nil or
non-slice input yields an empty slice; otherwise k tasks are launched, the
WaitGroup barrier (part_002:495-496) gates collection until every task has
finished, and the aggregate is read out of the slots in index order
(part_002:497-501).  The published aggregate is therefore a function of the
fully-written slot list; order is the tasks' completion order. -/
def AsyncParallelBatchNode.execAsyncInternal (exec : Val → ExecOutcome)
    (fallback : Val → Val → Val) (maxRetries wait : Nat) (items : Val)
    (order : List Nat) : Val :=
  match items with
  | .vlist xs =>
    let f := fun x => (AsyncNode.execAsyncInternal exec fallback maxRetries wait x).1
    let slots := AsyncParallelBatchNode.runTasks f xs order
    .vlist (slots.map (fun o => o.getD Val.vnil))
  | _ => .vlist []

/-- The parameter merge in BatchFlow.runInternal (part_002:294-300): start
from a copy of the flow's own params and overlay every entry of the per-run
override map, so override entries win. -/
def mergeParams (flowParams : Store) (overrides : List (String × Val)) : Store :=
  overrides.foldl (fun ps kv => storeSet kv.1 kv.2 ps) flowParams

/-- One iteration of the per-override loop of BatchFlow.runInternal
(part_002:288-303), over an accumulator holding the threaded shared store
and the list of parameter sets passed to the orchestrations so far.
In BatchFlow.runInternal, the flow's Prep produces the
batch; a non-slice (or nil) prep result is treated as the empty batch
(part_002:283-286); each element that is a parameter map is merged over the
flow's own params and one full orchestration is run with the merged params,
sequentially in batch order, its result discarded (part_002:288-303;
elements that are not maps are skipped by the continue); finally the flow's
own Post runs once, receiving the prep result and a nil exec result
(part_002:305).  Besides the final store and the Post result, the model
returns the list of parameter sets passed to the orchestrations, in order,
so that theorems can speak about which runs were performed. -/
def BatchFlow.step (flowParams : Store) (startNode : Option GoNode) (fuel : Nat)
    (acc : Store × List Store) (bp : Val) : Store × List Store :=
  match bp with
  | .vmap m =>
    let ps := mergeParams flowParams m
    let orch := Flow.orchestrate startNode flowParams acc.1 (some ps) fuel
    (orch.1, acc.2 ++ [ps])
  | _ => acc

/-- BatchFlow.runInternal (part_002:281-306), assembled from the per-element
step above: Prep, the sequential per-override runs, then the flow's own Post
exactly once. -/
def BatchFlow.runInternal (prep : Store → Store × Val)
    (post : Store → Val → Val → Store × Val) (flowParams : Store)
    (startNode : Option GoNode) (shared : Store) (fuel : Nat) :
    Store × Val × List Store :=
  let pr := prep shared
  let batch := match pr.2 with
    | .vlist xs => xs
    | _ => []
  let runs := batch.foldl (BatchFlow.step flowParams startNode fuel) (pr.1, ([] : List Store))
  let po := post runs.1 pr.2 Val.vnil
  (po.1, po.2, runs.2)

/-- The for-loop of AsyncFlow.orchestrateAsync (part_002:547-568): like the
synchronous loop, except that each step first applies the type assertion to
*AsyncNode (part_002:551) to the current node - a value whose dynamic type
the preceding *BaseNode assertions already fixed - and runs the async
lifecycle when it succeeds, the synchronous one otherwise. -/
def AsyncFlow.orchLoopAsync (params : Store) : GoNode → Store → Nat → Store × Val × List LEv
  | _, shared, 0 => (shared, .vnil, [])
  | curr, shared, fuel+1 =>
    let step :=
      if castAsyncNode curr then AsyncNode.runAsyncInternal curr params shared
      else BaseNode.runInternal curr params shared
    match Flow.GetNextNode curr.successors (goFormat step.2.1) with
    | none => step
    | some nxt =>
      match assertBaseNode nxt with
      | none => step
      | some nb =>
        let rest := AsyncFlow.orchLoopAsync params nb step.1 fuel
        (rest.1, rest.2.1, step.2.2 ++ rest.2.2)

/-- AsyncFlow.orchestrateAsync (part_002:522-573): nil start node sends nil;
nil params is replaced by a copy of the flow's params; the start node must
pass the *BaseNode type assertion (part_002:540-544), else nil is sent with
nothing executed; otherwise the loop runs from the start node. -/
def AsyncFlow.orchestrateAsync (startNode : Option GoNode) (flowParams : Store)
    (shared : Store) (params : Option Store) (fuel : Nat) : Store × Val × List LEv :=
  match startNode with
  | none => (shared, .vnil, [])
  | some sn =>
    let ps := params.getD flowParams
    match assertBaseNode sn with
    | none => (shared, .vnil, [])
    | some curr => AsyncFlow.orchLoopAsync ps curr shared fuel

/-- If resolving the action of the current node's lifecycle yields no
successor, the orchestration loop ends after that one lifecycle, and its
result - store, last action, trace - is exactly the lifecycle's result. -/
theorem Flow.orchLoop_break (params shared : Store) (fuel : Nat) (curr : GoNode)
    (h : Flow.GetNextNode curr.successors
        (goFormat (BaseNode.runInternal curr params shared).2.1) = none) :
    Flow.orchLoop params curr shared (fuel+1) = BaseNode.runInternal curr params shared := by
  simp only [Flow.orchLoop, h]

/-- The method set of the C1 scenario's start node A: its Post returns the
action "x" (the other phases are the defaults). -/
def c1Methods : Methods :=
  ⟨fun _ s => (s, .vnil), fun _ _ => .vnil, fun _ s _ _ => (s, Val.vstr "x"),
   fun _ s => (s, .vnil), fun _ _ => .ok .vnil, fun _ e => e,
   fun _ s _ _ => (s, .vnil)⟩

/-- The C1 scenario's node B: a plain BaseNode with no successors. -/
def c1NodeB : GoNode := GoNode.mk .baseNode 2 0 0 Methods.defaults []

/-- The C1 scenario's node A: a user node type (dynamic type DecideAction,
as in the example package, embedding the library's Node with retry policy
(1, 0)), whose Post returns "x", wired to B under action "x". -/
def c1NodeA : GoNode :=
  GoNode.mk (.external "DecideAction") 1 1 0 c1Methods [("x", c1NodeB)]

/-- C1: the claim states that running a synchronous flow whose start node is
A executes A's full Prep, Exec, Post lifecycle, and iff A's Post returns
"x" then B's lifecycle runs next on the same store.  The code does not do
this: Flow.orchestrate type-asserts its start node to *BaseNode
(part_002:231-234), so for a start node of any other dynamic type - every
node with an overridden lifecycle, such as A here - it returns nil having
executed no phase of any node (empty trace), and the flow's result is nil,
not A's action.  (A plain *BaseNode start would pass the assertion, but its
Post is the fixed default returning nil, hence can never return "x".) -/
theorem c1_orchestrate_skips_nonbase_start :
    Flow.orchestrate (some c1NodeA) [] [] none 9 = ([], Val.vnil, [])
    ∧ Flow.runInternal (some c1NodeA) [] [] 9 = ([], Val.vnil, []) :=
  ⟨rfl, rfl⟩

/-- C2: the claim states that with retry policy (n, w), n at least 1, and an
Exec that faults on every attempt, Exec runs exactly n times with n-1 waits
of w and one fallback invocation whose value becomes the result.  The code
does not do this: with n = 3, w = 5 and an always-faulting Exec,
Node.execInternal performs exactly one Exec call, no wait and no fallback
invocation, and returns nil rather than the fallback's value (which would
be the error "transient error" under the default fallback) - the
function-scoped deferred recover ends the function at the first panic. -/
theorem c2_sync_retry_executor_does_not_retry :
    Node.execInternal (fun _ => .fault (Val.verr "transient error"))
        Node.ExecFallback 3 5 Val.vnil
      = (Val.vnil, [REv.execCall]) := rfl

/-- The method set of the C4 scenario's async start node: its async phases
are observable (ExecAsync succeeds with "ok", PostAsync returns "done"). -/
def c4Methods : Methods :=
  ⟨fun _ s => (s, .vnil), fun _ _ => .vnil, fun _ s _ _ => (s, .vnil),
   fun _ s => (s, .vnil), fun _ _ => .ok (Val.vstr "ok"), fun _ e => e,
   fun _ s _ _ => (s, Val.vstr "done")⟩

/-- The C4 scenario's start node: an AsyncNode (dynamic type *AsyncNode)
with retry policy (1, 0). -/
def c4AsyncStart : GoNode := GoNode.mk .asyncNode 7 1 0 c4Methods []

/-- A plain BaseNode start used to show what the async orchestrator's loop
actually runs. -/
def c4BaseStart : GoNode := GoNode.mk .baseNode 3 0 0 Methods.defaults []

/-- C4: the claim states that the async flow loop awaits the async lifecycle
of any node exposing the async capability and runs the sync lifecycle
otherwise, so flows can mix both kinds.  The code does not do this: the
start node is type-asserted to *BaseNode (part_002:540-544), so an
AsyncNode start makes orchestrateAsync yield nil with no phase of any
lifecycle executed (first conjunct, empty trace); and for a node that does
pass that assertion the later assertion to *AsyncNode (part_002:551) can
never succeed - its dynamic type is exactly *BaseNode - so the loop always
runs the synchronous lifecycle (second conjunct). -/
theorem c4_asyncflow_never_awaits_async_nodes :
    AsyncFlow.orchestrateAsync (some c4AsyncStart) [] [] none 5 = ([], Val.vnil, [])
    ∧ AsyncFlow.orchLoopAsync [] c4BaseStart [] 5
        = ([], Val.vnil, [LEv.prepEv 3, LEv.execEv 3, LEv.postEv 3]) :=
  ⟨rfl, rfl⟩

/-- C9: registering a successor under the empty action stores it under the
reserved key "default" (BaseNode.Next normalizes "" before writing), and a
router lookup of the empty action reads the key "default"
(Flow.GetNextNode normalizes "" before reading): registration and lookup
with "" coincide with registration and lookup with "default", for every
successor map and node. -/
theorem c9_empty_action_normalizes_to_default :
    (∀ succs node, BaseNode.Next succs node "" = BaseNode.Next succs node "default")
    ∧ (∀ succs, Flow.GetNextNode succs "" = Flow.GetNextNode succs "default") :=
  ⟨fun _ _ => rfl, fun _ => rfl⟩

/-- C10: invoking an AsyncNode through the synchronous run path returns the
error value "use RunAsync", leaves the shared store unchanged, and executes
no lifecycle phase (the trace is empty), for every node value, parameter map
and shared store. -/
theorem c10_asyncnode_sync_run_returns_error (n : GoNode) (params shared : Store) :
    AsyncNode.runInternal n params shared = (shared, Val.verr "use RunAsync", []) := rfl

/-- C3: for a flow whose current node is a *BaseNode (the only node kind the
orchestration loop can run) whose returned action resolves to no successor -
no entry for the stringified action and no "default" entry - the flow
terminates right there with no error: the orchestration loop's result is
exactly the node's lifecycle result, so the last action produced is returned
as the orchestration result, and Flow.runInternal hands exactly that action
back as the flow's final result (Flow.Post returns its exec result
unchanged).  A node with zero successors satisfies the two hypotheses
trivially, so it likewise ends the flow silently. -/
theorem c3_unmatched_action_ends_flow (mr wt : Nat) (m : Methods) (i : Nat)
    (ss : List (String × GoNode)) (params shared : Store) (fuel : Nat)
    (hmatch : succLookup
        (goFormat (BaseNode.runInternal (GoNode.mk .baseNode i mr wt m ss) params shared).2.1)
        ss = none)
    (hdefault : succLookup "default" ss = none) :
    Flow.orchLoop params (GoNode.mk .baseNode i mr wt m ss) shared (fuel+1)
        = BaseNode.runInternal (GoNode.mk .baseNode i mr wt m ss) params shared
    ∧ (Flow.runInternal (some (GoNode.mk .baseNode i mr wt m ss)) params shared (fuel+1)).2.1
        = (BaseNode.runInternal (GoNode.mk .baseNode i mr wt m ss) params shared).2.1 := by
  have hsucc : (GoNode.mk .baseNode i mr wt m ss).successors = ss := rfl
  have hnext : Flow.GetNextNode (GoNode.mk .baseNode i mr wt m ss).successors
      (goFormat (BaseNode.runInternal (GoNode.mk .baseNode i mr wt m ss) params shared).2.1)
      = none := by
    rw [hsucc]
    unfold Flow.GetNextNode
    by_cases hemp :
        goFormat (BaseNode.runInternal (GoNode.mk .baseNode i mr wt m ss) params shared).2.1 = ""
    · simp only [hemp, if_pos rfl]
      exact hdefault
    · simp only [if_neg hemp]
      exact hmatch
  have hloop := Flow.orchLoop_break params shared fuel (GoNode.mk .baseNode i mr wt m ss) hnext
  refine ⟨hloop, ?_⟩
  unfold Flow.runInternal Flow.orchestrate
  simp only [Option.getD_none, assertBaseNode, GoNode.tag, hloop, Flow.Post]

/-- The C3 witness scenario's method set: Post returns the action "y". -/
def c3Methods : Methods :=
  ⟨fun _ s => (s, .vnil), fun _ _ => .vnil, fun _ s _ _ => (s, Val.vstr "y"),
   fun _ s => (s, .vnil), fun _ _ => .ok .vnil, fun _ e => e,
   fun _ s _ _ => (s, .vnil)⟩

/-- The C3 witness scenario's successor node. -/
def c3NodeB : GoNode := GoNode.mk .baseNode 11 0 0 Methods.defaults []

/-- Witness for C3 at a concrete input: a BaseNode whose Post returns "y"
and whose only successor is registered under "x" (no "y" entry, no
"default" entry): the orchestration stops after its single lifecycle and
"y" is the flow's final result. -/
theorem c3_unmatched_action_ends_flow_witness :
    succLookup
        (goFormat (BaseNode.runInternal (GoNode.mk .baseNode 10 0 0 c3Methods [("x", c3NodeB)]) [] []).2.1)
        [("x", c3NodeB)] = none
    ∧ succLookup "default" [("x", c3NodeB)] = none
    ∧ (Flow.orchLoop [] (GoNode.mk .baseNode 10 0 0 c3Methods [("x", c3NodeB)]) [] 4
          = BaseNode.runInternal (GoNode.mk .baseNode 10 0 0 c3Methods [("x", c3NodeB)]) [] []
      ∧ (Flow.runInternal (some (GoNode.mk .baseNode 10 0 0 c3Methods [("x", c3NodeB)])) [] [] 4).2.1
          = (BaseNode.runInternal (GoNode.mk .baseNode 10 0 0 c3Methods [("x", c3NodeB)]) [] []).2.1) :=
  ⟨rfl, rfl, c3_unmatched_action_ends_flow 0 0 c3Methods 10 [("x", c3NodeB)] [] [] 3 rfl rfl⟩

/-- C5: the batch executor over a slice input maps the node's retry-wrapped
Exec (b.Node.execInternal) over the elements independently, index-for-index
and in input order - so output length equals input length and each output
element is a function of its own input element alone - while a nil input, an
empty slice and a non-slice input each yield an empty output with an empty
retry trace: Exec is never invoked. -/
theorem c5_batch_maps_retry_exec_in_order (exec : Val → ExecOutcome)
    (fallback : Val → Val → Val) (maxRetries wait : Nat) (xs : List Val) :
    BatchNode.execInternal exec fallback maxRetries wait (Val.vlist xs)
        = (Val.vlist (xs.map (fun x => (Node.execInternal exec fallback maxRetries wait x).1)),
           (xs.map (fun x => (Node.execInternal exec fallback maxRetries wait x).2)).flatten)
    ∧ BatchNode.execInternal exec fallback maxRetries wait Val.vnil = (Val.vlist [], [])
    ∧ BatchNode.execInternal exec fallback maxRetries wait (Val.vlist []) = (Val.vlist [], [])
    ∧ BatchNode.execInternal exec fallback maxRetries wait (Val.vstr "not a slice")
        = (Val.vlist [], []) := by
  refine ⟨?_, rfl, rfl, rfl⟩
  simp only [BatchNode.execInternal, List.map_map]
  rfl

/-- In the async retry loop, an Exec that faults on every attempt drives the
loop to the final attempt, whose fallback result is the value sent. -/
theorem AsyncNode.execAsyncLoop_fault_value (e : Val) (fb : Val → Val → Val)
    (w : Nat) (pr : Val) (n : Nat) :
    ∀ (fuel i : Nat), i < n → n ≤ i + fuel →
      (AsyncNode.execAsyncLoop (fun _ => .fault e) fb w pr n i fuel).1 = fb pr e := by
  intro fuel
  induction fuel with
  | zero => intro i h1 h2; omega
  | succ f ih =>
    intro i h1 h2
    unfold AsyncNode.execAsyncLoop
    simp only [if_pos h1]
    by_cases hl : i = n - 1
    · simp [hl]
    · simp only [if_neg hl]
      exact ih (i+1) (by omega) (by omega)

/-- In the async retry loop, an Exec that succeeds immediately returns its
value on the first attempt. -/
theorem AsyncNode.execAsyncLoop_ok_value (v : Val) (fb : Val → Val → Val)
    (w : Nat) (pr : Val) (n : Nat) (fuel i : Nat) (h1 : i < n) (h2 : 0 < fuel) :
    (AsyncNode.execAsyncLoop (fun _ => .ok v) fb w pr n i fuel).1 = v := by
  cases fuel with
  | zero => omega
  | succ f =>
    unfold AsyncNode.execAsyncLoop
    simp [if_pos h1]

/-- C8: the default fallback handlers return the error value itself, and a
fallback result flows onward exactly like a successful Exec result.  In the
retry executor in which the fallback fires (the async one; the synchronous
executor's fallback call site is dead code, see the analysis at
Node.execInternalLoop), a node whose Exec faults on every attempt under the
default fallback produces the error value e as its exec result - exactly the
result a node whose Exec succeeds with the value e produces - and the router
therefore resolves the same successor for both: retries-exhausted is
indistinguishable from success unless the node's own Post or fallback
encodes the distinction in the action. -/
theorem c8_fallback_result_flows_like_success (pr e : Val) (n w : Nat) (hn : 1 ≤ n) :
    Node.ExecFallback pr e = e
    ∧ AsyncNode.ExecFallbackAsync pr e = e
    ∧ (AsyncNode.execAsyncInternal (fun _ => .fault e) AsyncNode.ExecFallbackAsync n w pr).1 = e
    ∧ (AsyncNode.execAsyncInternal (fun _ => .ok e) AsyncNode.ExecFallbackAsync n w pr).1 = e
    ∧ ∀ succs, Flow.GetNextNode succs
          (goFormat (AsyncNode.execAsyncInternal (fun _ => .fault e)
            AsyncNode.ExecFallbackAsync n w pr).1)
        = Flow.GetNextNode succs
          (goFormat (AsyncNode.execAsyncInternal (fun _ => .ok e)
            AsyncNode.ExecFallbackAsync n w pr).1) := by
  have hfault :
      (AsyncNode.execAsyncInternal (fun _ => .fault e) AsyncNode.ExecFallbackAsync n w pr).1 = e :=
    AsyncNode.execAsyncLoop_fault_value e AsyncNode.ExecFallbackAsync w pr n n 0
      (by omega) (by omega)
  have hok :
      (AsyncNode.execAsyncInternal (fun _ => .ok e) AsyncNode.ExecFallbackAsync n w pr).1 = e :=
    AsyncNode.execAsyncLoop_ok_value e AsyncNode.ExecFallbackAsync w pr n n 0
      (by omega) (by omega)
  exact ⟨rfl, rfl, hfault, hok, fun succs => by rw [hfault, hok]⟩

/-- Witness for C8 at a concrete input: retry policy (2, 3), prep result
nil, error value "transient error". -/
theorem c8_fallback_result_flows_like_success_witness :
    1 ≤ 2
    ∧ (Node.ExecFallback Val.vnil (Val.verr "transient error") = Val.verr "transient error"
      ∧ AsyncNode.ExecFallbackAsync Val.vnil (Val.verr "transient error")
          = Val.verr "transient error"
      ∧ (AsyncNode.execAsyncInternal (fun _ => .fault (Val.verr "transient error"))
            AsyncNode.ExecFallbackAsync 2 3 Val.vnil).1 = Val.verr "transient error"
      ∧ (AsyncNode.execAsyncInternal (fun _ => .ok (Val.verr "transient error"))
            AsyncNode.ExecFallbackAsync 2 3 Val.vnil).1 = Val.verr "transient error"
      ∧ ∀ succs, Flow.GetNextNode succs
            (goFormat (AsyncNode.execAsyncInternal (fun _ => .fault (Val.verr "transient error"))
              AsyncNode.ExecFallbackAsync 2 3 Val.vnil).1)
          = Flow.GetNextNode succs
            (goFormat (AsyncNode.execAsyncInternal (fun _ => .ok (Val.verr "transient error"))
              AsyncNode.ExecFallbackAsync 2 3 Val.vnil).1)) :=
  ⟨by decide,
   c8_fallback_result_flows_like_success Val.vnil (Val.verr "transient error") 2 3 (by decide)⟩

/-- Writing a slot preserves the number of slots. -/
theorem slotWrite_length : ∀ (slots : List (Option Val)) (i : Nat) (v : Val),
    (slotWrite slots i v).length = slots.length
  | [], _, _ => rfl
  | _ :: _, 0, _ => rfl
  | _ :: rest, i+1, v => by simp [slotWrite, slotWrite_length rest i v]

/-- Writing an in-range slot makes that slot hold the written value. -/
theorem slotWrite_get_self : ∀ (slots : List (Option Val)) (i : Nat) (v : Val),
    i < slots.length → (slotWrite slots i v)[i]? = some (some v)
  | [], i, _, h => by simp at h
  | _ :: _, 0, _, _ => by simp [slotWrite]
  | _ :: rest, i+1, v, h =>
    by simpa [slotWrite] using slotWrite_get_self rest i v (by simpa using h)

/-- Writing one slot leaves every other slot unchanged. -/
theorem slotWrite_get_other : ∀ (slots : List (Option Val)) (i j : Nat) (v : Val),
    i ≠ j → (slotWrite slots i v)[j]? = slots[j]?
  | [], _, _, _, _ => rfl
  | _ :: _, 0, 0, _, h => absurd rfl h
  | _ :: _, 0, _+1, _, _ => by simp [slotWrite]
  | _ :: _, _+1, 0, _, _ => by simp [slotWrite]
  | _ :: rest, i+1, j+1, v, h => by
    simpa [slotWrite] using slotWrite_get_other rest i j v (fun hij => h (by omega))

/-- Writing past the end of the slots is a no-op. -/
theorem slotWrite_oob : ∀ (slots : List (Option Val)) (i : Nat) (v : Val),
    slots.length ≤ i → slotWrite slots i v = slots
  | [], _, _, _ => rfl
  | _ :: _, 0, _, h => by simp at h
  | s :: rest, i+1, v, h => by simp [slotWrite, slotWrite_oob rest i v (by simpa using h)]

/-- After the parallel fan-out deposits results in any completion order,
slot j holds the value derived from element j whenever task j has completed,
and is untouched otherwise - regardless of where j occurs in the completion
order. -/
theorem runTasks_fold_get (f : Val → Val) (xs : List Val) :
    ∀ (order : List Nat) (slots : List (Option Val)) (j : Nat),
      (order.foldl (fun sl idx => slotWrite sl idx (f (xs.getD idx Val.vnil))) slots)[j]?
        = if j ∈ order ∧ j < slots.length
          then some (some (f (xs.getD j Val.vnil)))
          else slots[j]?
  | [], slots, j => by simp
  | a :: rest, slots, j => by
    rw [List.foldl_cons, runTasks_fold_get f xs rest (slotWrite slots a (f (xs.getD a Val.vnil))) j,
      slotWrite_length]
    by_cases hjr : j ∈ rest
    · by_cases hjl : j < slots.length
      · simp [hjr, hjl]
      · simp only [hjr, hjl, and_false, if_false, and_true]
        by_cases hja : a = j
        · rw [slotWrite_oob slots a _ (by omega)]
        · rw [slotWrite_get_other slots a j _ hja]
    · by_cases hja : a = j
      · subst hja
        by_cases hjl : a < slots.length
        · simp [hjr, hjl, slotWrite_get_self slots a _ hjl]
        · simp only [hjr, false_and, if_false, hjl, and_false]
          rw [slotWrite_oob slots a _ (by omega)]
      · have hcond : ¬(j ∈ a :: rest ∧ j < slots.length) := by
          simp only [List.mem_cons]
          rintro ⟨hj1 | hj2, _⟩
          · exact hja hj1.symm
          · exact hjr hj2
        rw [if_neg (fun hc => hjr hc.1), slotWrite_get_other slots a j _ hja, if_neg hcond]

/-- C6: for a slice input of length k on the parallel batch executor, any
run - any order in which the k concurrent tasks complete, i.e. any
permutation of the task indices - publishes, only after the barrier, the
length-k aggregate whose element i is the retry-wrapped async Exec result of
input element i: output order matches input order, each output element is
derived from its own input element alone (so one task's fallback value
merely occupies its own slot and no task's outcome disturbs the others),
and the aggregate is the same for every completion order. -/
theorem c6_parallel_batch_order_independent (exec : Val → ExecOutcome)
    (fallback : Val → Val → Val) (maxRetries wait : Nat) (xs : List Val)
    (order : List Nat) (hperm : order.Perm (List.range xs.length)) :
    AsyncParallelBatchNode.execAsyncInternal exec fallback maxRetries wait (Val.vlist xs) order
      = Val.vlist (xs.map (fun x => (AsyncNode.execAsyncInternal exec fallback maxRetries wait x).1))
    ∧ ∀ order2, order2.Perm (List.range xs.length) →
        AsyncParallelBatchNode.execAsyncInternal exec fallback maxRetries wait
            (Val.vlist xs) order
          = AsyncParallelBatchNode.execAsyncInternal exec fallback maxRetries wait
            (Val.vlist xs) order2 := by
  have key : ∀ (od : List Nat), od.Perm (List.range xs.length) →
      AsyncParallelBatchNode.execAsyncInternal exec fallback maxRetries wait (Val.vlist xs) od
        = Val.vlist
            (xs.map (fun x => (AsyncNode.execAsyncInternal exec fallback maxRetries wait x).1)) := by
    intro od hod
    have hmem : ∀ j : Nat, j ∈ od ↔ j < xs.length := by
      intro j
      rw [hod.mem_iff, List.mem_range]
    simp only [AsyncParallelBatchNode.execAsyncInternal, AsyncParallelBatchNode.runTasks]
    congr 1
    apply List.ext_getElem?
    intro j
    rw [List.getElem?_map,
      runTasks_fold_get (fun x => (AsyncNode.execAsyncInternal exec fallback maxRetries wait x).1)
        xs od (List.replicate xs.length none) j,
      List.length_replicate]
    by_cases hj : j < xs.length
    · rw [if_pos ⟨(hmem j).mpr hj, hj⟩, List.getElem?_map,
        List.getElem?_eq_getElem hj]
      simp [List.getD_eq_getElem?_getD, List.getElem?_eq_getElem hj]
    · rw [if_neg (by simp [hj]), List.getElem?_map]
      have h1 : xs[j]? = none := List.getElem?_eq_none (by omega)
      have h2 : (List.replicate xs.length (none : Option Val))[j]? = none :=
        List.getElem?_eq_none (by simpa using by omega)
      simp [h1, h2]
  exact ⟨key order hperm, fun order2 h2 => by rw [key order hperm, key order2 h2]⟩

/-- Witness for C6 at a concrete input: three elements, completion order
(task 2, then task 0, then task 1), element-doubling async Exec. -/
theorem c6_parallel_batch_order_independent_witness :
    ([2, 0, 1] : List Nat).Perm (List.range [Val.vint 1, Val.vint 2, Val.vint 3].length)
    ∧ (AsyncParallelBatchNode.execAsyncInternal
          (fun v => match v with
            | .vint n => .ok (.vint (2 * n))
            | _ => .fault (.verr "not an int"))
          AsyncNode.ExecFallbackAsync 1 0
          (Val.vlist [Val.vint 1, Val.vint 2, Val.vint 3]) [2, 0, 1]
        = Val.vlist
            ([Val.vint 1, Val.vint 2, Val.vint 3].map
              (fun x => (AsyncNode.execAsyncInternal
                (fun v => match v with
                  | .vint n => .ok (.vint (2 * n))
                  | _ => .fault (.verr "not an int"))
                AsyncNode.ExecFallbackAsync 1 0 x).1))
      ∧ ∀ order2, order2.Perm (List.range [Val.vint 1, Val.vint 2, Val.vint 3].length) →
          AsyncParallelBatchNode.execAsyncInternal
              (fun v => match v with
                | .vint n => .ok (.vint (2 * n))
                | _ => .fault (.verr "not an int"))
              AsyncNode.ExecFallbackAsync 1 0
              (Val.vlist [Val.vint 1, Val.vint 2, Val.vint 3]) [2, 0, 1]
            = AsyncParallelBatchNode.execAsyncInternal
              (fun v => match v with
                | .vint n => .ok (.vint (2 * n))
                | _ => .fault (.verr "not an int"))
              AsyncNode.ExecFallbackAsync 1 0
              (Val.vlist [Val.vint 1, Val.vint 2, Val.vint 3]) order2) :=
  ⟨by decide,
   c6_parallel_batch_order_independent
     (fun v => match v with
       | .vint n => .ok (.vint (2 * n))
       | _ => .fault (.verr "not an int"))
     AsyncNode.ExecFallbackAsync 1 0 [Val.vint 1, Val.vint 2, Val.vint 3] [2, 0, 1] (by decide)⟩

/-- Looking up the key just set yields the value just set. -/
theorem storeLookup_storeSet_self (k : String) (v : Val) :
    ∀ ps, storeLookup k (storeSet k v ps) = some v
  | [] => by simp [storeSet, storeLookup]
  | (k2, v2) :: rest => by
    by_cases h : k2 = k
    · simp [storeSet, h, storeLookup]
    · simp [storeSet, h, storeLookup, storeLookup_storeSet_self k v rest]

/-- Setting one key does not change the lookup of another. -/
theorem storeLookup_storeSet_other (k k2 : String) (v : Val) (h : k2 ≠ k) :
    ∀ ps, storeLookup k (storeSet k2 v ps) = storeLookup k ps
  | [] => by simp [storeSet, storeLookup, h]
  | (k3, v3) :: rest => by
    by_cases h3 : k3 = k2
    · subst h3
      simp [storeSet, storeLookup, h]
    · simp [storeSet, h3, storeLookup, storeLookup_storeSet_other k k2 v h rest]

/-- Lookup distributes over concatenation, first list first. -/
theorem storeLookup_append (k : String) : ∀ (l1 l2 : Store),
    storeLookup k (l1 ++ l2) = (storeLookup k l1).or (storeLookup k l2)
  | [], l2 => by simp [storeLookup]
  | (k2, v2) :: rest, l2 => by
    by_cases h : k2 = k
    · simp [storeLookup, h]
    · simp [storeLookup, h, storeLookup_append k rest l2]

/-- The merge of an override map over the flow's own params resolves a key
to the override's binding when the override has one (its last binding, were
there duplicates - a Go map has none) and to the flow params' binding
otherwise: override entries win. -/
theorem storeLookup_mergeParams (k : String) : ∀ (ov : List (String × Val)) (fp : Store),
    storeLookup k (mergeParams fp ov) = (storeLookup k ov.reverse).or (storeLookup k fp)
  | [], fp => by simp [mergeParams, storeLookup]
  | (k2, v2) :: rest, fp => by
    have hstep : mergeParams fp ((k2, v2) :: rest) = mergeParams (storeSet k2 v2 fp) rest := rfl
    have hone : storeLookup k (storeSet k2 v2 fp)
        = (storeLookup k [(k2, v2)]).or (storeLookup k fp) := by
      by_cases h : k2 = k
      · subst h
        rw [storeLookup_storeSet_self]
        simp [storeLookup]
      · rw [storeLookup_storeSet_other k k2 v2 h]
        simp [storeLookup, h]
    rw [hstep, storeLookup_mergeParams k rest (storeSet k2 v2 fp), hone, List.reverse_cons,
      storeLookup_append, Option.or_assoc]

/-- Folding the per-override step of BatchFlow.runInternal over a batch of
parameter maps threads the store through one orchestration per map, in
order, each with its merged parameter set, and records those parameter sets
in order. -/
theorem batchFlow_fold (flowParams : Store) (startNode : Option GoNode) (fuel : Nat) :
    ∀ (ms : List (List (String × Val))) (s : Store) (acc : List Store),
      (ms.map Val.vmap).foldl (BatchFlow.step flowParams startNode fuel) (s, acc)
        = (ms.foldl
             (fun st m => (Flow.orchestrate startNode flowParams st
               (some (mergeParams flowParams m)) fuel).1) s,
           acc ++ ms.map (mergeParams flowParams))
  | [], s, acc => by simp
  | m :: rest, s, acc => by
    simp only [List.map_cons, List.foldl_cons]
    rw [show BatchFlow.step flowParams startNode fuel (s, acc) (Val.vmap m)
        = ((Flow.orchestrate startNode flowParams s (some (mergeParams flowParams m)) fuel).1,
           acc ++ [mergeParams flowParams m]) from rfl,
      batchFlow_fold flowParams startNode fuel rest _ _]
    simp

/-- C7: when the batch flow's Prep yields a slice of parameter maps ms, the
run performs exactly one synchronous orchestration per map, sequentially in
input order, the i-th with the i-th override merged over the flow's own
params (third conjunct: an override entry wins over a flow-param entry for
the same key); each orchestration's result value is discarded - only its
store threads on - and the flow's own Post runs exactly once, after all the
runs, receiving the prep result and a nil exec result, its output being the
batch flow's result. -/
theorem c7_batchflow_one_run_per_override (prep : Store → Store × Val)
    (post : Store → Val → Val → Store × Val) (flowParams : Store)
    (startNode : Option GoNode) (shared : Store) (fuel : Nat) (s1 : Store)
    (ms : List (List (String × Val)))
    (hprep : prep shared = (s1, Val.vlist (ms.map Val.vmap))) :
    BatchFlow.runInternal prep post flowParams startNode shared fuel
        = ((post (ms.foldl
               (fun st m => (Flow.orchestrate startNode flowParams st
                 (some (mergeParams flowParams m)) fuel).1) s1)
             (Val.vlist (ms.map Val.vmap)) Val.vnil).1,
           (post (ms.foldl
               (fun st m => (Flow.orchestrate startNode flowParams st
                 (some (mergeParams flowParams m)) fuel).1) s1)
             (Val.vlist (ms.map Val.vmap)) Val.vnil).2,
           ms.map (mergeParams flowParams))
    ∧ ∀ (ov : List (String × Val)) (fp : Store) (k : String),
        storeLookup k (mergeParams fp ov) = (storeLookup k ov.reverse).or (storeLookup k fp) := by
  refine ⟨?_, fun ov fp k => storeLookup_mergeParams k ov fp⟩
  simp only [BatchFlow.runInternal, hprep]
  rw [batchFlow_fold flowParams startNode fuel ms s1 []]
  simp

/-- The C7 witness scenario's Prep: returns two parameter-override maps. -/
def c7Prep : Store → Store × Val :=
  fun s => (s, Val.vlist [Val.vmap [("k", Val.vstr "v1")], Val.vmap [("k", Val.vstr "v2")]])

/-- The C7 witness scenario's Post. -/
def c7Post : Store → Val → Val → Store × Val :=
  fun s _ _ => (s, Val.vstr "batch done")

/-- The C7 witness scenario's flow-level default params. -/
def c7Flowparams : Store := [("k", Val.vstr "v0"), ("j", Val.vstr "w")]

/-- The C7 witness scenario's override list. -/
def c7Overrides : List (List (String × Val)) :=
  [[("k", Val.vstr "v1")], [("k", Val.vstr "v2")]]

/-- Witness for C7 at a concrete input: two overrides of the key "k" over
flow params binding "k" and "j". -/
theorem c7_batchflow_one_run_per_override_witness :
    c7Prep [] = ([], Val.vlist (c7Overrides.map Val.vmap))
    ∧ (BatchFlow.runInternal c7Prep c7Post c7Flowparams none [] 3
          = ((c7Post (c7Overrides.foldl
                 (fun st m => (Flow.orchestrate none c7Flowparams st
                   (some (mergeParams c7Flowparams m)) 3).1) [])
               (Val.vlist (c7Overrides.map Val.vmap)) Val.vnil).1,
             (c7Post (c7Overrides.foldl
                 (fun st m => (Flow.orchestrate none c7Flowparams st
                   (some (mergeParams c7Flowparams m)) 3).1) [])
               (Val.vlist (c7Overrides.map Val.vmap)) Val.vnil).2,
             c7Overrides.map (mergeParams c7Flowparams))
      ∧ ∀ (ov : List (String × Val)) (fp : Store) (k : String),
          storeLookup k (mergeParams fp ov)
            = (storeLookup k ov.reverse).or (storeLookup k fp)) :=
  ⟨rfl, c7_batchflow_one_run_per_override c7Prep c7Post c7Flowparams none [] 3 [] c7Overrides rfl⟩
